import Mathlib

/-!
# Verification of the KQCircuits simulation queue / database layer

Shallow embedding of the simulation-orchestration code of this repository:

* `klayout_package/python/kqcircuits/simulations/simulation_queue.py`
  (`SimulationRun`, `SimulationQueue`: `add_run`, `save`/`load`,
  `_parse_output_folder`, `_find_batch_file`, `_execute_python_script`,
  `_execute_batch_file`, `_execute_run`, `execute`), and
* `simulations_database/tools/simulation_db.py`
  (`SimulationDB`: `_detect_varied_parameters`, `_generate_sweep_folder_name`,
  `register_simulations`, `finalize_simulation`).

Modelling conventions:

* Subprocess invocations and the filesystem are external effects.  They are
  modelled by an explicit environment: each attempted run consumes one
  `RunEnv` record describing the outcome of its Python-script subprocess, the
  directory listing of its output folder, the outcome of its batch-file
  subprocess, and the wall-clock timestamps observed during the run.
* Python timestamps (`datetime.now().isoformat()`, `strftime`) are modelled as
  opaque strings supplied by the environment; durations (Python floats whose
  JSON rendering round-trips exactly) are modelled as exact rationals.
* JSON-serializable Python values that the code never inspects (the values of
  `sweep_overrides` and of simulation parameter dicts) are modelled by their
  string rendering; the source itself compares parameter values via `str(v)`.
* Python dicts are modelled as association lists in insertion order.
* Logging (`_log`, `_setup_logging`, the `log_file` attribute) is write-only
  console/file output with no influence on any queue state or return value,
  and is not modelled.
* Several `String` operations of core Lean (`<`, `endsWith`, `replace`, …) do
  not reduce in the kernel, so character-list versions are defined here.
-/

/-! ## String primitives (kernel-computable replacements for core operations) -/

/-- Code-point comparison of characters, as Python compares characters. -/
def charLt (a b : Char) : Bool := a.toNat < b.toNat

/-- Lexicographic comparison of character lists: Python `<` on strings. -/
def charListLt : List Char → List Char → Bool
  | [], [] => false
  | [], _ :: _ => true
  | _ :: _, [] => false
  | a :: as, b :: bs => charLt a b || (a == b && charListLt as bs)

/-- Python `a <= b` on strings (lexicographic by code point). -/
def strLe (a b : String) : Bool := !(charListLt b.data a.data)

/-- Insert a string into a sorted list (helper for `sortStrings`). -/
def insertSorted (a : String) : List String → List String
  | [] => [a]
  | b :: bs => if strLe a b then a :: b :: bs else b :: insertSorted a bs

/-- Python `sorted` on a list of strings (lexicographic by code point). -/
def sortStrings : List String → List String
  | [] => []
  | a :: as => insertSorted a (sortStrings as)

/-- Python `s.endswith(suf)` / pattern-suffix test. -/
def strEndsWith (s suf : String) : Bool := suf.data.isSuffixOf s.data

/-- Python `s.startswith(pre)`. -/
def strStartsWith (s pre : String) : Bool := pre.data.isPrefixOf s.data

/-- Python `sub in s` (substring containment), on character lists. -/
def charListContains (sub : List Char) : List Char → Bool
  | [] => sub.isEmpty
  | c :: cs => sub.isPrefixOf (c :: cs) || charListContains sub cs

/-- Python `sub in s` (substring containment). -/
def strContains (s sub : String) : Bool := charListContains sub.data s.data

/-- The characters Python's `\s` regex class and `str.strip()` treat as
whitespace (ASCII range). -/
def isPySpace (c : Char) : Bool :=
  c == ' ' || c == '\t' || c == '\n' || c == '\r' || c == '\x0b' || c == '\x0c'

/-- Python `str.strip()`: drop whitespace from both ends. -/
def pyStrip (cs : List Char) : List Char :=
  ((cs.dropWhile isPySpace).reverse.dropWhile isPySpace).reverse

/-- `pathlib.Path(name).suffix`: the extension starting at the rightmost dot,
empty when there is no dot, the dot is the first character (hidden file), or
the dot is the last character. -/
def pySuffix (n : String) : String :=
  let cs := n.data
  let tail := cs.reverse.takeWhile (fun c => !(c == '.'))
  if tail.length == cs.length then ""
  else if tail.length == 0 then ""
  else if cs.length - tail.length - 1 == 0 then ""
  else String.mk ('.' :: tail.reverse)

/-- `folder_name.replace(' ', '_').replace('/', '_')` — the sanitation applied
by `_generate_sweep_folder_name` and `_generate_sim_folder_name` (the replaced
patterns are single characters, so a character map is equivalent). -/
def sanitizeName (s : String) : String :=
  String.mk (s.data.map (fun c => if c == ' ' || c == '/' then '_' else c))

/-! ## The queue data model (`simulation_queue.py`) -/

/-- Outcome of one `subprocess.run` call: either a completed process with its
exit code and captured stdout, or a raised exception (modelling the
`except Exception as e` branches); `msg` models `str(e)` together with the
appended traceback text. -/
inductive ProcResult where
  | ok (returncode : Int) (stdout : String)
  | exc (msg : String)
deriving DecidableEq, Repr

/-- The external world consumed by one attempted run: the result of the
Python-script subprocess, the directory listing of the parsed output folder
(in the order `glob` returns it), the result of the batch-file subprocess,
and the observed wall-clock data. -/
structure RunEnv where
  script : ProcResult
  files : List String
  batch : ProcResult
  startTime : String
  endTime : String
  duration : Rat
deriving DecidableEq, Repr

/-- The `SimulationRun` dataclass, with the dataclass field defaults. -/
structure SimulationRun where
  script : String
  description : String
  args : List String := []
  sweep_overrides : Option (List (String × String)) := none
  enabled : Bool := true
  status : String := "pending"
  output_folder : Option String := none
  bat_file : Option String := none
  start_time : Option String := none
  end_time : Option String := none
  duration_seconds : Option Rat := none
  error_message : Option String := none
  exit_code : Option Int := none
deriving DecidableEq, Repr

/-- The JSON object produced by `SimulationRun.to_dict` (`dataclasses.asdict`):
one key per dataclass field.  Python's `json.dump`/`json.load` round-trips
such JSON trees exactly, so serialization is modelled as the identity on this
record. -/
structure RunDict where
  script : String
  description : String
  args : List String
  sweep_overrides : Option (List (String × String))
  enabled : Bool
  status : String
  output_folder : Option String
  bat_file : Option String
  start_time : Option String
  end_time : Option String
  duration_seconds : Option Rat
  error_message : Option String
  exit_code : Option Int
deriving DecidableEq, Repr

/-- `SimulationRun.to_dict`. -/
def SimulationRun.to_dict (r : SimulationRun) : RunDict :=
  ⟨r.script, r.description, r.args, r.sweep_overrides, r.enabled, r.status,
   r.output_folder, r.bat_file, r.start_time, r.end_time, r.duration_seconds,
   r.error_message, r.exit_code⟩

/-- `SimulationRun.from_dict` (`cls(**data)`). -/
def SimulationRun.from_dict (d : RunDict) : SimulationRun :=
  ⟨d.script, d.description, d.args, d.sweep_overrides, d.enabled, d.status,
   d.output_folder, d.bat_file, d.start_time, d.end_time, d.duration_seconds,
   d.error_message, d.exit_code⟩

/-- The `SimulationQueue` object.  `created_at` is the timestamp taken in
`__init__`; the write-only `log_file` attribute is not modelled. -/
structure SimulationQueue where
  queue_name : String
  error_handling : String
  runs : List SimulationRun
  created_at : String
deriving DecidableEq, Repr

/-- `SimulationQueue.add_run`: append a fresh run with status `"pending"`.
`args` is `Optional` in the source (`args or []`). -/
def SimulationQueue.add_run (q : SimulationQueue) (script description : String)
    (sweep_overrides : Option (List (String × String)))
    (args : Option (List String)) (enabled : Bool) : SimulationQueue :=
  { q with runs := q.runs ++
      [{ script := script, description := description, args := args.getD [],
         sweep_overrides := sweep_overrides, enabled := enabled }] }

/-- The JSON document written by `SimulationQueue.save`.  `created_at` and
`error_handling` are `Option` because `load` tolerates their absence via
`data.get`. -/
structure QueueData where
  queue_name : String
  created_at : Option String
  error_handling : Option String
  runs : List RunDict
deriving DecidableEq, Repr

/-- `SimulationQueue.save`: serialize the queue configuration. -/
def SimulationQueue.save (q : SimulationQueue) : QueueData :=
  { queue_name := q.queue_name, created_at := some q.created_at,
    error_handling := some q.error_handling,
    runs := q.runs.map SimulationRun.to_dict }

/-- `SimulationQueue.load`: rebuild a queue from a saved JSON document.
`now` models the `datetime.now().isoformat()` default used when the file has
no `created_at` key. -/
def SimulationQueue.load (d : QueueData) (now : String) : SimulationQueue :=
  { queue_name := d.queue_name,
    error_handling := d.error_handling.getD "continue",
    created_at := d.created_at.getD now,
    runs := d.runs.map SimulationRun.from_dict }

/-! ## Stdout parsing and batch-file lookup -/

/-- Literal `"Exported "` of the regex in `_parse_output_folder`. -/
def litExported : List Char := "Exported ".data

/-- Literal `" simulation files to:"` of the regex in `_parse_output_folder`. -/
def litSimFilesTo : List Char := " simulation files to:".data

/-- Greedy `\s*(.+)` at the end of the regex: consume the longest whitespace
run, then capture greedily up to the next newline, backtracking into the
whitespace when nothing non-newline remains. -/
def wsCapture (u : List Char) : Option (List Char) :=
  let w := u.takeWhile isPySpace
  let r := u.drop w.length
  if r.isEmpty then
    match u.reverse.dropWhile (fun c => c == '\n') with
    | [] => none
    | c :: _ => some [c]
  else
    some (r.takeWhile (fun c => !(c == '\n')))

/-- Greedy `.* simulation files to:\s*(.+)`: `.*` cannot cross a newline and
prefers the longest match, so candidate split points are tried from the
rightmost one backwards. -/
def starCapture (rest : List Char) : Option (List Char) :=
  let L := (rest.takeWhile (fun c => !(c == '\n'))).length
  (((List.range (L + 1)).reverse).filterMap (fun j =>
      let t := rest.drop j
      if litSimFilesTo.isPrefixOf t then wsCapture (t.drop litSimFilesTo.length)
      else none)).head?

/-- `re.search` scanning: try the full pattern at each position from the left,
returning the first (leftmost) successful match's capture group. -/
def searchExported : List Char → Option (List Char)
  | [] => none
  | c :: cs =>
    match (if litExported.isPrefixOf (c :: cs) then
            starCapture ((c :: cs).drop litExported.length)
           else none) with
    | some g => some g
    | none => searchExported cs

/-- `SimulationQueue._parse_output_folder`: search stdout for
`"Exported .* simulation files to:\s*(.+)"` and return the stripped capture
group. -/
def parse_output_folder (stdout : String) : Option String :=
  (searchExported stdout.data).map (fun g => String.mk (pyStrip g))

/-- `SimulationQueue._find_batch_file` over the directory listing of the
output folder: prefer `simulation.bat`, else the first `*.bat` glob match
(glob's `*` does not match a leading dot). -/
def find_batch_file (files : List String) : Option String :=
  if files.contains "simulation.bat" then some "simulation.bat"
  else (files.filter (fun f => strEndsWith f ".bat" && !(strStartsWith f "."))).head?

/-! ## Executing a single run -/

/-- `SimulationQueue._execute_python_script`: run the script subprocess, fail
on nonzero exit, a missing/empty parsed output folder (`if not output_folder`),
or an exception; on success record `output_folder`. -/
def execute_python_script (e : RunEnv) (run : SimulationRun) :
    SimulationRun × Bool :=
  match e.script with
  | .exc msg =>
    ({ run with
       error_message := some ("Exception during script execution: " ++ msg) },
     false)
  | .ok rc out =>
    if rc ≠ 0 then
      ({ run with
         error_message := some ("Script failed with exit code " ++ toString rc),
         exit_code := some rc },
       false)
    else
      let output_folder := parse_output_folder out
      if output_folder = none ∨ output_folder = some "" then
        ({ run with
           error_message := some "Could not find output folder in script output" },
         false)
      else
        ({ run with output_folder := output_folder }, true)

/-- `SimulationQueue._execute_batch_file`: locate the batch file in the
output folder, fail when absent; run it, record its exit code, fail on
nonzero exit or an exception.  `bat_file` is the joined path
`output_folder / name` (separator modelled as `/`). -/
def execute_batch_file (e : RunEnv) (run : SimulationRun) :
    SimulationRun × Bool :=
  match find_batch_file e.files with
  | none =>
    ({ run with
       error_message := some ("Could not find batch file in " ++ run.output_folder.getD "") },
     false)
  | some bat =>
    let run := { run with
                 bat_file := some (run.output_folder.getD "" ++ "/" ++ bat) }
    match e.batch with
    | .exc msg =>
      ({ run with
         error_message := some ("Exception during batch execution: " ++ msg) },
       false)
    | .ok rc _ =>
      let run := { run with exit_code := some rc }
      if rc ≠ 0 then
        ({ run with
           error_message := some ("Batch file failed with exit code " ++ toString rc) },
         false)
      else (run, true)

/-- `SimulationQueue._execute_run`: the two sequential stages.  Status becomes
`"running"`, then `"failed"` as soon as a stage fails, else `"completed"`;
timing fields are recorded in every outcome. -/
def execute_run (e : RunEnv) (run : SimulationRun) : SimulationRun × Bool :=
  let run := { run with status := "running", start_time := some e.startTime }
  let p := execute_python_script e run
  if !p.2 then
    ({ p.1 with
       status := "failed", end_time := some e.endTime,
       duration_seconds := some e.duration },
     false)
  else
    let b := execute_batch_file e p.1
    if !b.2 then
      ({ b.1 with
         status := "failed", end_time := some e.endTime,
         duration_seconds := some e.duration },
       false)
    else
      ({ b.1 with
         status := "completed", end_time := some e.endTime,
         duration_seconds := some e.duration },
       true)

/-! ## Executing the queue -/

/-- A run is selected for execution by `execute`: it must be enabled, and in
resume mode additionally have recorded status `"pending"`. -/
def selected (resume : Bool) (r : SimulationRun) : Bool :=
  r.enabled && (!resume || r.status == "pending")

/-- Loop state of `SimulationQueue.execute`: whether the `"stop"` policy broke
out of the loop, the number of runs attempted so far (indexing the
environment), and the two counters. -/
structure ExecState where
  halted : Bool
  idx : Nat
  completed : Nat
  failed : Nat
deriving DecidableEq, Repr

/-- The `for` loop of `SimulationQueue.execute`: walk the runs list in order;
each selected run (until a `"stop"`-policy break) is attempted with the next
environment record, and is replaced by its updated state. -/
def execLoop (eh : String) (resume : Bool) (env : Nat → RunEnv) :
    ExecState → List SimulationRun → ExecState × List SimulationRun
  | st, [] => (st, [])
  | st, r :: rs =>
    if selected resume r && !st.halted then
      let p := execute_run (env st.idx) r
      let st1 : ExecState :=
        { halted := st.halted || (!p.2 && eh == "stop"),
          idx := st.idx + 1,
          completed := st.completed + (if p.2 then 1 else 0),
          failed := st.failed + (if p.2 then 0 else 1) }
      let rec1 := execLoop eh resume env st1 rs
      (rec1.1, p.1 :: rec1.2)
    else
      let rec1 := execLoop eh resume env st rs
      (rec1.1, r :: rec1.2)

/-- The summary dictionary returned by `SimulationQueue.execute`.
`total_runs = none` models the absence of the `"total_runs"` key (the
empty-queue branch returns a dict without it). -/
structure Summary where
  status : String
  runs_completed : Nat
  runs_failed : Nat
  total_runs : Option Nat
deriving DecidableEq, Repr

/-- `SimulationQueue.execute`: with no enabled runs, return the `"empty"`
summary and touch nothing; otherwise run the loop over the runs list and
return the updated queue together with the `"completed"` summary. -/
def SimulationQueue.execute (q : SimulationQueue) (resume : Bool)
    (env : Nat → RunEnv) : SimulationQueue × Summary :=
  let enabled_runs := q.runs.filter (fun r => r.enabled)
  if enabled_runs.isEmpty then
    (q, { status := "empty", runs_completed := 0, runs_failed := 0,
          total_runs := none })
  else
    let total_runs := (q.runs.filter (selected resume)).length
    let res := execLoop q.error_handling resume env
      { halted := false, idx := 0, completed := 0, failed := 0 } q.runs
    ({ q with runs := res.2 },
     { status := "completed", runs_completed := res.1.completed,
       runs_failed := res.1.failed, total_runs := some total_runs })

/-! ## The simulation database (`simulation_db.py`) -/

/-- A simulation object as seen by `SimulationDB`: its `name` and the dict
returned by `get_parameters()` (keys in insertion order, values modelled by
their string rendering — the source compares them via `str(v)`). -/
structure Sim where
  name : String
  params : List (String × String)
deriving DecidableEq, Repr

/-- The export-parameters dict, restricted to the keys `SimulationDB` reads;
`none` models an absent key (read through `dict.get` with a default). -/
structure ExportParams where
  ansys_tool : Option String
  solve_acrl : Option Bool
deriving DecidableEq, Repr

/-- Keys excluded by `_detect_varied_parameters` (metadata / auto-generated
values, not real sweep parameters). -/
def excludedDetect : List String := ["name", "extra_json_data", "box", "face_stack"]

/-- `SimulationDB._detect_varied_parameters`: with at most one simulation the
result is empty; otherwise iterate the first simulation's parameter keys in
order, skip the excluded ones, collect each key's values over the simulations
that have it, and record the key when the values are not all equal, mapped to
its deduplicated, sorted value list. -/
def detect_varied_parameters (sims : List Sim) : List (String × List String) :=
  if sims.length ≤ 1 then []
  else
    match sims with
    | [] => []
    | s0 :: _ =>
      (s0.params.map Prod.fst).filterMap (fun key =>
        if key ∈ excludedDetect then none
        else
          let values := sims.filterMap (fun s => s.params.lookup key)
          if 1 < values.dedup.length then
            some (key, sortStrings values.dedup)
          else none)

/-- Keys additionally excluded from the sweep folder name. -/
def excludedName : List String :=
  ["name", "box", "face_stack", "use_ports", "use_internal_ports"]

/-- `SimulationDB._generate_sweep_folder_name`: `ts` is the pre-rendered
`timestamp.strftime('%Y%m%d_%H%M%S')`. -/
def generate_sweep_folder_name (ts : String)
    (varied_params : List (String × List String)) (ep : ExportParams) : String :=
  let tool0 := ep.ansys_tool.getD "sim"
  let tool := if tool0 = "q3d" && ep.solve_acrl.getD false then "q3d_acrl" else tool0
  let meaningful := varied_params.filter (fun kv => !(kv.1 ∈ excludedName))
  let folder_name :=
    if !meaningful.isEmpty then
      let param_names :=
        "_".intercalate ((sortStrings (meaningful.map Prod.fst)).take 2)
      ts ++ "_" ++ param_names ++ "_sweep_" ++ tool
    else
      ts ++ "_single_" ++ tool
  sanitizeName folder_name

/-- `SimulationDB._generate_sim_folder_name`: just the sanitized simulation
name. -/
def generate_sim_folder_name (sim : Sim) : String := sanitizeName sim.name

/-- The database-relevant outcome of `SimulationDB.register_simulations`: the
detected varied parameters (recorded in both the sweep metadata and each
simulation's metadata), the sweep folder name, and the simulation-name →
database-folder mapping written for `finalize_results`.  Directory creation
and JSON writes are filesystem effects; the folder paths are recorded
relative to the database root. -/
structure RegisterResult where
  varied_parameters : List (String × List String)
  sweep_folder_name : String
  db_folders : List (String × String)
deriving DecidableEq, Repr

/-- `SimulationDB.register_simulations` (the name and metadata computations;
`ts` is the rendered timestamp). -/
def register_simulations (sims : List Sim) (design_name : String)
    (ep : ExportParams) (ts : String) : RegisterResult :=
  let varied_params := detect_varied_parameters sims
  let sweep_folder_name := generate_sweep_folder_name ts varied_params ep
  { varied_parameters := varied_params,
    sweep_folder_name := sweep_folder_name,
    db_folders := sims.map (fun sim =>
      (sim.name,
       design_name ++ "/" ++ sweep_folder_name ++ "/" ++ generate_sim_folder_name sim)) }

/-! ## Finalizing results (`finalize_simulation`) -/

/-- A glob pattern as used by `finalize_simulation`: an exact file name, or a
`prefix*suffix` pattern with a single star. -/
inductive GPat where
  | exact (s : String)
  | star (pre suf : String)
deriving DecidableEq, Repr

/-- `pathlib.Path.glob` matching for the patterns above (`*` matches any run
of characters within one file name). -/
def gmatch : GPat → String → Bool
  | .exact s, n => n == s
  | .star pre suf, n =>
    pre.data.isPrefixOf n.data && suf.data.isSuffixOf (n.data.drop pre.data.length)

/-- The result-file patterns of `finalize_simulation`. -/
def resultPatterns (sim_name : String) : List GPat :=
  [ .star (sim_name ++ "_") ".json",
    .star (sim_name ++ "_") "results.json",
    .star (sim_name ++ "_") "CMatrix.txt",
    .star (sim_name ++ "_") "LMatrix.txt",
    .star (sim_name ++ "_") "RMatrix.txt",
    .exact (sim_name ++ ".s2p"),
    .star (sim_name ++ "_") ".s2p",
    .exact (sim_name ++ ".csv"),
    .star (sim_name ++ "_") ".csv" ]

/-- The input-file patterns of `finalize_simulation` (geometry and setup). -/
def inputPatterns (sim_name : String) : List GPat :=
  [ .exact (sim_name ++ ".gds"),
    .exact (sim_name ++ ".json"),
    .star (sim_name ++ "_") ".json" ]

/-- `result_files`: for each pattern in order, the matching names from the
ANSYS output folder listing (a file matching several patterns appears once
per pattern, exactly as the source's repeated `extend`). -/
def matchedFiles (sim_name : String) (outputFiles : List String) : List String :=
  (resultPatterns sim_name ++ inputPatterns sim_name).flatMap
    (fun p => outputFiles.filter (gmatch p))

/-- Destination routing of the copy loop: result-like names (containing
`results` or `Matrix`, or with suffix `.s2p`/`.csv`) go into the `results/`
subfolder, everything else into the database-folder root. -/
def toResultsSub (name : String) : Bool :=
  strContains name "results" || strContains name "Matrix" ||
    pySuffix name == ".s2p" || pySuffix name == ".csv"

/-- Contents of one simulation's database folder: the file names existing in
its root and in its `results/` subfolder. -/
structure DbState where
  root : List String
  results : List String
deriving DecidableEq, Repr

/-- The copy loop of `finalize_simulation`: each matched name is copied to its
destination only when the destination path does not already exist; the
returned number counts the copies performed. -/
def copyFiles : DbState → List String → DbState × Nat
  | st, [] => (st, 0)
  | st, name :: rest =>
    if toResultsSub name then
      if name ∈ st.results then copyFiles st rest
      else
        let out := copyFiles { st with results := st.results ++ [name] } rest
        (out.1, out.2 + 1)
    else
      if name ∈ st.root then copyFiles st rest
      else
        let out := copyFiles { st with root := st.root ++ [name] } rest
        (out.1, out.2 + 1)

/-- The fields of `metadata.json` that `finalize_simulation` rewrites.  The
optional `results_summary` extraction (lines 196–209 of the source) only adds
a further key derived from the results JSON and is not modelled. -/
structure MetaData where
  status : String
  completion_time : Option String
deriving DecidableEq, Repr

/-- `SimulationDB.finalize_simulation`: copy the matched files (skipping
existing destinations), and when `metadata.json` exists rewrite it with
status `"completed"` and the completion time `now`.  Returns the new folder
contents, the number of files copied, and the new metadata. -/
def finalize_simulation (sim_name : String) (outputFiles : List String)
    (st : DbState) (md : Option MetaData) (now : String) :
    DbState × Nat × Option MetaData :=
  let res := copyFiles st (matchedFiles sim_name outputFiles)
  (res.1, res.2,
   md.map (fun m => { m with status := "completed", completion_time := some now }))

/-! ## Specification-side helper definitions

These are not translations of source functions; they are the vocabulary used
by the claim statements to describe `execute`'s behaviour. -/

/-- Number of runs of a list selected for execution. -/
def selCount (resume : Bool) (l : List SimulationRun) : Nat :=
  (l.filter (selected resume)).length

/-- Number of selected runs strictly before position `j` (the attempt index
the run at position `j` receives when it is executed). -/
def selBefore (resume : Bool) : List SimulationRun → Nat → Nat
  | _, 0 => 0
  | [], _ + 1 => 0
  | r :: rs, j + 1 =>
    (if selected resume r then 1 else 0) + selBefore resume rs j

/-- The success bits of the selected runs of a list, in order, when attempt
numbering starts at `i`. -/
def succList (resume : Bool) (env : Nat → RunEnv) : Nat → List SimulationRun → List Bool
  | _, [] => []
  | i, r :: rs =>
    if selected resume r then
      (execute_run (env i) r).2 :: succList resume env (i + 1) rs
    else succList resume env i rs

/-- The runs list after every selected run has been attempted (the result of
the loop when no `"stop"` break occurs), attempt numbering starting at `i`. -/
def runResults (resume : Bool) (env : Nat → RunEnv) : Nat → List SimulationRun → List SimulationRun
  | _, [] => []
  | i, r :: rs =>
    if selected resume r then
      (execute_run (env i) r).1 :: runResults resume env (i + 1) rs
    else r :: runResults resume env i rs

/-- The Python-script stage succeeds: the script subprocess exits with code 0
and a nonempty output folder is parsed from its stdout. -/
def scriptStageOk (e : RunEnv) : Bool :=
  match e.script with
  | .exc _ => false
  | .ok rc out =>
    rc == 0 &&
      (match parse_output_folder out with
       | none => false
       | some f => !(f == ""))

/-- The batch-file stage succeeds: a batch file is found and its subprocess
exits with code 0. -/
def batchStageOk (e : RunEnv) : Bool :=
  (find_batch_file e.files).isSome &&
    (match e.batch with
     | .exc _ => false
     | .ok rc _ => rc == 0)

/-- The failure conditions listed by claim C3, structured by stage: the
script exits nonzero, raises, or yields no (nonempty) parseable output
folder; or the script stage succeeded but no batch file is found, the batch
file exits nonzero, or raises. -/
def runFails (e : RunEnv) : Prop :=
  (∃ m, e.script = .exc m) ∨
  (∃ rc out, e.script = .ok rc out ∧ rc ≠ 0) ∨
  (∃ out, e.script = .ok 0 out ∧
    (parse_output_folder out = none ∨ parse_output_folder out = some "")) ∨
  (scriptStageOk e = true ∧ find_batch_file e.files = none) ∨
  (scriptStageOk e = true ∧ ∃ m, e.batch = .exc m) ∨
  (scriptStageOk e = true ∧ ∃ rc out, e.batch = .ok rc out ∧ rc ≠ 0)

/-! ## Lemmas about the execution loop -/

/-- After the `"stop"` policy has broken out of the loop, the remaining runs
and the counters pass through untouched. -/
theorem execLoop_halted (eh : String) (resume : Bool) (env : Nat → RunEnv)
    (rs : List SimulationRun) : ∀ st : ExecState, st.halted = true →
    execLoop eh resume env st rs = (st, rs) := by
  induction rs with
  | nil => intro st h; simp [execLoop]
  | cons r rs ih => intro st h; simp [execLoop, h, ih st h]

/-- `succList` has one entry per selected run. -/
theorem succList_length (resume : Bool) (env : Nat → RunEnv)
    (rs : List SimulationRun) : ∀ i : Nat,
    (succList resume env i rs).length = selCount resume rs := by
  induction rs with
  | nil => intro i; simp [succList, selCount]
  | cons r rs ih =>
    intro i
    by_cases h : selected resume r = true <;>
      simp [succList, selCount, List.filter_cons, h, ih]

/-- Counting `true`s and `false`s exhausts a list of booleans. -/
theorem count_true_add_count_false (bs : List Bool) :
    bs.count true + bs.count false = bs.length := by
  induction bs with
  | nil => rfl
  | cons b bs ih => cases b <;> simp [List.count_cons] <;> omega

/-- With any policy other than `"stop"` (in particular `"continue"`), the
loop attempts every selected run: the final counters add the success and
failure counts of `succList`, and the final runs list is `runResults`. -/
theorem execLoop_no_stop (eh : String) (resume : Bool) (env : Nat → RunEnv)
    (heh : (eh == "stop") = false) (rs : List SimulationRun) :
    ∀ i c f : Nat,
    execLoop eh resume env ⟨false, i, c, f⟩ rs
      = (⟨false, i + (succList resume env i rs).length,
          c + (succList resume env i rs).count true,
          f + (succList resume env i rs).count false⟩,
         runResults resume env i rs) := by
  induction rs with
  | nil => intro i c f; simp [execLoop, succList, runResults]
  | cons r rs ih =>
    intro i c f
    by_cases hsel : selected resume r = true
    · by_cases hs : (execute_run (env i) r).2 = true
      · simp [execLoop, hsel, hs, heh, succList, runResults, ih,
          List.count_cons, Prod.ext_iff, ExecState.mk.injEq]
        omega
      · rw [Bool.not_eq_true] at hs
        simp [execLoop, hsel, hs, heh, succList, runResults, ih,
          List.count_cons, Prod.ext_iff, ExecState.mk.injEq]
        omega
    · rw [Bool.not_eq_true] at hsel
      simp [execLoop, hsel, succList, runResults, ih]

/-- `selCount` over a cons cell. -/
theorem selCount_cons (resume : Bool) (r : SimulationRun) (l : List SimulationRun) :
    selCount resume (r :: l)
      = (if selected resume r then 1 else 0) + selCount resume l := by
  by_cases h : selected resume r = true <;>
    simp [selCount, List.filter_cons, h, Nat.add_comm]

/-- Loop step: a run that is not selected, or reached after the loop halted,
passes through unchanged. -/
theorem execLoop_cons_skip (eh : String) (resume : Bool) (env : Nat → RunEnv)
    (st : ExecState) (r : SimulationRun) (t : List SimulationRun)
    (h : (selected resume r && !st.halted) = false) :
    execLoop eh resume env st (r :: t)
      = ((execLoop eh resume env st t).1, r :: (execLoop eh resume env st t).2) := by
  simp [execLoop, h]

/-- Loop step: a selected run reached before any halt is attempted with the
current attempt index, and the state advances accordingly. -/
theorem execLoop_cons_sel (eh : String) (resume : Bool) (env : Nat → RunEnv)
    (st : ExecState) (r : SimulationRun) (t : List SimulationRun)
    (hsel : selected resume r = true) (hh : st.halted = false) :
    execLoop eh resume env st (r :: t)
      = ((execLoop eh resume env
            ⟨!(execute_run (env st.idx) r).2 && eh == "stop", st.idx + 1,
             st.completed + (if (execute_run (env st.idx) r).2 then 1 else 0),
             st.failed + (if (execute_run (env st.idx) r).2 then 0 else 1)⟩ t).1,
         (execute_run (env st.idx) r).1 ::
           (execLoop eh resume env
            ⟨!(execute_run (env st.idx) r).2 && eh == "stop", st.idx + 1,
             st.completed + (if (execute_run (env st.idx) r).2 then 1 else 0),
             st.failed + (if (execute_run (env st.idx) r).2 then 0 else 1)⟩ t).2) := by
  simp [execLoop, hsel, hh]

/-- Loop step, successful attempt, concrete state. -/
theorem execLoop_cons_ok (eh : String) (resume : Bool) (env : Nat → RunEnv)
    (i c f : Nat) (r : SimulationRun) (t : List SimulationRun)
    (hsel : selected resume r = true) (hs : (execute_run (env i) r).2 = true) :
    execLoop eh resume env ⟨false, i, c, f⟩ (r :: t)
      = ((execLoop eh resume env ⟨false, i + 1, c + 1, f⟩ t).1,
         (execute_run (env i) r).1 ::
           (execLoop eh resume env ⟨false, i + 1, c + 1, f⟩ t).2) := by
  simp [execLoop, hsel, hs]

/-- Loop step, failed attempt, concrete state: the halt flag becomes the
`"stop"`-policy test. -/
theorem execLoop_cons_fail (eh : String) (resume : Bool) (env : Nat → RunEnv)
    (i c f : Nat) (r : SimulationRun) (t : List SimulationRun)
    (hsel : selected resume r = true) (hs : (execute_run (env i) r).2 = false) :
    execLoop eh resume env ⟨false, i, c, f⟩ (r :: t)
      = ((execLoop eh resume env ⟨eh == "stop", i + 1, c, f + 1⟩ t).1,
         (execute_run (env i) r).1 ::
           (execLoop eh resume env ⟨eh == "stop", i + 1, c, f + 1⟩ t).2) := by
  simp [execLoop, hsel, hs]

/-- While every selected run succeeds, the loop walks an initial segment
without halting: the counters advance by the number of selected runs of the
segment and the loop continues on the remainder. -/
theorem execLoop_append_ok (eh : String) (resume : Bool) (env : Nat → RunEnv)
    (l : List SimulationRun) : ∀ (m : List SimulationRun) (i c f : Nat),
    (succList resume env i l).all id = true →
    execLoop eh resume env ⟨false, i, c, f⟩ (l ++ m)
      = ((execLoop eh resume env
            ⟨false, i + selCount resume l, c + selCount resume l, f⟩ m).1,
         runResults resume env i l ++
           (execLoop eh resume env
            ⟨false, i + selCount resume l, c + selCount resume l, f⟩ m).2) := by
  induction l with
  | nil => intro m i c f h; simp [selCount, runResults]
  | cons r l ih =>
    intro m i c f h
    by_cases hsel : selected resume r = true
    · rw [succList, if_pos hsel, List.all_cons, Bool.and_eq_true] at h
      have hs : (execute_run (env i) r).2 = true := by simpa using h.1
      rw [List.cons_append, execLoop_cons_ok eh resume env i c f r (l ++ m) hsel hs,
        ih m (i + 1) (c + 1) f h.2]
      simp [runResults, hsel, selCount_cons, Nat.add_assoc]
    · rw [Bool.not_eq_true] at hsel
      rw [succList, if_neg (by simp [hsel])] at h
      rw [List.cons_append,
        execLoop_cons_skip eh resume env ⟨false, i, c, f⟩ r (l ++ m) (by simp [hsel]),
        ih m i c f h]
      simp [runResults, hsel, selCount_cons]

/-- The loop never changes the length of the runs list. -/
theorem execLoop_length (eh : String) (resume : Bool) (env : Nat → RunEnv)
    (rs : List SimulationRun) : ∀ st : ExecState,
    ((execLoop eh resume env st rs).2).length = rs.length := by
  induction rs with
  | nil => intro st; simp [execLoop]
  | cons r rs ih =>
    intro st
    by_cases h : (selected resume r && !st.halted) = true
    · simp [execLoop, h, ih]
    · rw [Bool.not_eq_true] at h; simp [execLoop, h, ih]

/-- A run that is not selected comes out of the loop untouched, whatever the
policy and wherever the loop halted. -/
theorem execLoop_unselected (eh : String) (resume : Bool) (env : Nat → RunEnv)
    (rs : List SimulationRun) : ∀ (st : ExecState) (j : Nat) (r₀ : SimulationRun),
    rs[j]? = some r₀ → selected resume r₀ = false →
    ((execLoop eh resume env st rs).2)[j]? = some r₀ := by
  induction rs with
  | nil => intro st j r₀ h _; simp at h
  | cons r rs ih =>
    intro st j r₀ h hsel
    cases j with
    | zero =>
      rw [List.getElem?_cons_zero, Option.some_inj] at h
      subst h
      rw [execLoop_cons_skip eh resume env st r rs (by simp [hsel])]
      simp
    | succ j =>
      rw [List.getElem?_cons_succ] at h
      by_cases hh : st.halted = true
      · rw [execLoop_halted eh resume env _ st hh]
        simpa using h
      · rw [Bool.not_eq_true] at hh
        by_cases hc : selected resume r = true
        · rw [execLoop_cons_sel eh resume env st r rs hc hh]
          simpa using ih _ j r₀ h hsel
        · rw [Bool.not_eq_true] at hc
          rw [execLoop_cons_skip eh resume env st r rs (by simp [hc])]
          simpa using ih st j r₀ h hsel

/-- A run the loop did change was attempted, and with the attempt index
`selBefore`: the number of selected runs before its position (shifted by the
starting index of the loop state). -/
theorem execLoop_changed (eh : String) (resume : Bool) (env : Nat → RunEnv)
    (rs : List SimulationRun) : ∀ (st : ExecState) (j : Nat),
    ((execLoop eh resume env st rs).2)[j]? ≠ rs[j]? →
    ((execLoop eh resume env st rs).2)[j]?
      = (rs[j]?).map (fun r => (execute_run (env (st.idx + selBefore resume rs j)) r).1) := by
  induction rs with
  | nil => intro st j h; simp [execLoop] at h
  | cons r rs ih =>
    intro st j h
    by_cases hh : st.halted = true
    · rw [execLoop_halted eh resume env _ st hh] at h
      exact absurd rfl h
    · rw [Bool.not_eq_true] at hh
      by_cases hsel : selected resume r = true
      · rw [execLoop_cons_sel eh resume env st r rs hsel hh] at h ⊢
        cases j with
        | zero => simp [selBefore]
        | succ j =>
          rw [List.getElem?_cons_succ] at h ⊢
          simp only [List.getElem?_cons_succ] at h ⊢
          rw [ih _ j (by simpa using h)]
          simp [selBefore, hsel, Nat.add_assoc]
      · rw [Bool.not_eq_true] at hsel
        rw [execLoop_cons_skip eh resume env st r rs (by simp [hsel])] at h ⊢
        cases j with
        | zero => simp at h
        | succ j =>
          simp only [List.getElem?_cons_succ] at h ⊢
          rw [ih st j (by simpa using h)]
          simp [selBefore, hsel]

/-- When no run of the list is selected, `runResults` is the identity. -/
theorem runResults_id (resume : Bool) (env : Nat → RunEnv)
    (rs : List SimulationRun) (h : ∀ r ∈ rs, selected resume r = false) :
    ∀ i : Nat, runResults resume env i rs = rs := by
  induction rs with
  | nil => intro i; simp [runResults]
  | cons r rs ih =>
    intro i
    have hr : selected resume r = false := h r (by simp)
    simp [runResults, hr, ih (fun x hx => h x (by simp [hx])) i]

/-- `selBefore` is monotone in the position. -/
theorem selBefore_mono (resume : Bool) (rs : List SimulationRun) :
    ∀ i j : Nat, i ≤ j → selBefore resume rs i ≤ selBefore resume rs j := by
  induction rs with
  | nil => intro i j _; cases i <;> cases j <;> simp [selBefore]
  | cons r rs ih =>
    intro i j hij
    cases i with
    | zero => cases j <;> simp [selBefore]
    | succ i =>
      cases j with
      | zero => omega
      | succ j =>
        simp only [selBefore]
        have := ih i j (by omega)
        omega

/-- Passing a selected run increments `selBefore`. -/
theorem selBefore_succ_of_selected (resume : Bool) (rs : List SimulationRun) :
    ∀ (i : Nat) (r₀ : SimulationRun), rs[i]? = some r₀ →
    selected resume r₀ = true →
    selBefore resume rs (i + 1) = selBefore resume rs i + 1 := by
  induction rs with
  | nil => intro i r₀ h _; simp at h
  | cons r rs ih =>
    intro i r₀ h hsel
    cases i with
    | zero =>
      rw [List.getElem?_cons_zero, Option.some_inj] at h
      subst h
      simp [selBefore, hsel]
    | succ i =>
      rw [List.getElem?_cons_succ] at h
      simp only [selBefore]
      rw [ih i r₀ h hsel]
      omega

/-! ## Lemmas about the copy loop of `finalize_simulation` -/

/-- Membership in the `results/` subfolder after the copy loop: exactly the
old contents plus the processed names routed to `results/`. -/
theorem copyFiles_mem_results (ns : List String) : ∀ (st : DbState) (f : String),
    f ∈ (copyFiles st ns).1.results
      ↔ f ∈ st.results ∨ (f ∈ ns ∧ toResultsSub f = true) := by
  induction ns with
  | nil => intro st f; simp [copyFiles]
  | cons n rest ih =>
    intro st f
    by_cases hr : toResultsSub n = true
    · by_cases hm : n ∈ st.results
      · rw [copyFiles, if_pos hr, if_pos hm, ih st f]
        constructor
        · rintro (hf | ⟨hf, hR⟩)
          · exact Or.inl hf
          · exact Or.inr ⟨List.mem_cons_of_mem n hf, hR⟩
        · rintro (hf | ⟨hf, hR⟩)
          · exact Or.inl hf
          · rcases List.mem_cons.mp hf with rfl | hf2
            · exact Or.inl hm
            · exact Or.inr ⟨hf2, hR⟩
      · rw [copyFiles, if_pos hr, if_neg hm]
        rw [show (let out := copyFiles { st with results := st.results ++ [n] } rest
              (out.1, out.2 + 1)).1 = (copyFiles { st with results := st.results ++ [n] } rest).1 from rfl]
        rw [ih _ f]
        simp only [List.mem_append, List.mem_singleton]
        constructor
        · rintro ((hf | rfl) | ⟨hf, hR⟩)
          · exact Or.inl hf
          · exact Or.inr ⟨List.mem_cons_self _ _, hr⟩
          · exact Or.inr ⟨List.mem_cons_of_mem n hf, hR⟩
        · rintro (hf | ⟨hf, hR⟩)
          · exact Or.inl (Or.inl hf)
          · rcases List.mem_cons.mp hf with rfl | hf2
            · exact Or.inl (Or.inr rfl)
            · exact Or.inr ⟨hf2, hR⟩
    · rw [Bool.not_eq_true] at hr
      have key : ∀ st2 : DbState, st2.results = st.results →
          (f ∈ st2.results ∨ (f ∈ rest ∧ toResultsSub f = true)
            ↔ f ∈ st.results ∨ (f ∈ n :: rest ∧ toResultsSub f = true)) := by
        intro st2 heq
        rw [heq]
        constructor
        · rintro (hf | ⟨hf, hR⟩)
          · exact Or.inl hf
          · exact Or.inr ⟨List.mem_cons_of_mem n hf, hR⟩
        · rintro (hf | ⟨hf, hR⟩)
          · exact Or.inl hf
          · rcases List.mem_cons.mp hf with rfl | hf2
            · rw [hr] at hR; exact absurd hR (by simp)
            · exact Or.inr ⟨hf2, hR⟩
      by_cases hm : n ∈ st.root
      · rw [copyFiles, if_neg (by simp [hr]), if_pos hm, ih st f]
        exact key st rfl
      · rw [copyFiles, if_neg (by simp [hr]), if_neg hm]
        rw [show (let out := copyFiles { st with root := st.root ++ [n] } rest
              (out.1, out.2 + 1)).1 = (copyFiles { st with root := st.root ++ [n] } rest).1 from rfl]
        rw [ih _ f]
        exact key _ rfl

/-- Membership in the database-folder root after the copy loop: exactly the
old contents plus the processed names routed to the root. -/
theorem copyFiles_mem_root (ns : List String) : ∀ (st : DbState) (f : String),
    f ∈ (copyFiles st ns).1.root
      ↔ f ∈ st.root ∨ (f ∈ ns ∧ toResultsSub f = false) := by
  induction ns with
  | nil => intro st f; simp [copyFiles]
  | cons n rest ih =>
    intro st f
    by_cases hr : toResultsSub n = true
    · have key : ∀ st2 : DbState, st2.root = st.root →
          (f ∈ st2.root ∨ (f ∈ rest ∧ toResultsSub f = false)
            ↔ f ∈ st.root ∨ (f ∈ n :: rest ∧ toResultsSub f = false)) := by
        intro st2 heq
        rw [heq]
        constructor
        · rintro (hf | ⟨hf, hR⟩)
          · exact Or.inl hf
          · exact Or.inr ⟨List.mem_cons_of_mem n hf, hR⟩
        · rintro (hf | ⟨hf, hR⟩)
          · exact Or.inl hf
          · rcases List.mem_cons.mp hf with rfl | hf2
            · rw [hr] at hR; exact absurd hR (by simp)
            · exact Or.inr ⟨hf2, hR⟩
      by_cases hm : n ∈ st.results
      · rw [copyFiles, if_pos hr, if_pos hm, ih st f]
        exact key st rfl
      · rw [copyFiles, if_pos hr, if_neg hm]
        rw [show (let out := copyFiles { st with results := st.results ++ [n] } rest
              (out.1, out.2 + 1)).1 = (copyFiles { st with results := st.results ++ [n] } rest).1 from rfl]
        rw [ih _ f]
        exact key _ rfl
    · rw [Bool.not_eq_true] at hr
      by_cases hm : n ∈ st.root
      · rw [copyFiles, if_neg (by simp [hr]), if_pos hm, ih st f]
        constructor
        · rintro (hf | ⟨hf, hR⟩)
          · exact Or.inl hf
          · exact Or.inr ⟨List.mem_cons_of_mem n hf, hR⟩
        · rintro (hf | ⟨hf, hR⟩)
          · exact Or.inl hf
          · rcases List.mem_cons.mp hf with rfl | hf2
            · exact Or.inl hm
            · exact Or.inr ⟨hf2, hR⟩
      · rw [copyFiles, if_neg (by simp [hr]), if_neg hm]
        rw [show (let out := copyFiles { st with root := st.root ++ [n] } rest
              (out.1, out.2 + 1)).1 = (copyFiles { st with root := st.root ++ [n] } rest).1 from rfl]
        rw [ih _ f]
        simp only [List.mem_append, List.mem_singleton]
        constructor
        · rintro ((hf | rfl) | ⟨hf, hR⟩)
          · exact Or.inl hf
          · exact Or.inr ⟨List.mem_cons_self _ _, hr⟩
          · exact Or.inr ⟨List.mem_cons_of_mem n hf, hR⟩
        · rintro (hf | ⟨hf, hR⟩)
          · exact Or.inl (Or.inl hf)
          · rcases List.mem_cons.mp hf with rfl | hf2
            · exact Or.inl (Or.inr rfl)
            · exact Or.inr ⟨hf2, hR⟩

/-- Every copy adds exactly one file: the total size of the database folder
grows by the returned copy count. -/
theorem copyFiles_length (ns : List String) : ∀ st : DbState,
    (copyFiles st ns).1.root.length + (copyFiles st ns).1.results.length
      = st.root.length + st.results.length + (copyFiles st ns).2 := by
  induction ns with
  | nil => intro st; simp [copyFiles]
  | cons n rest ih =>
    intro st
    by_cases hr : toResultsSub n = true
    · by_cases hm : n ∈ st.results
      · rw [copyFiles, if_pos hr, if_pos hm]; exact ih st
      · rw [copyFiles, if_pos hr, if_neg hm]
        have := ih { st with results := st.results ++ [n] }
        simp only at this ⊢
        simp [this]
        omega
    · by_cases hm : n ∈ st.root
      · rw [copyFiles, if_neg hr, if_pos hm]; exact ih st
      · rw [copyFiles, if_neg hr, if_neg hm]
        have := ih { st with root := st.root ++ [n] }
        simp only at this ⊢
        simp [this]
        omega

/-- The copy loop only appends to the folder contents — existing files are
never overwritten or removed. -/
theorem copyFiles_append_only (ns : List String) : ∀ st : DbState,
    (∃ l, (copyFiles st ns).1.root = st.root ++ l) ∧
    (∃ l, (copyFiles st ns).1.results = st.results ++ l) := by
  induction ns with
  | nil => intro st; exact ⟨⟨[], by simp [copyFiles]⟩, ⟨[], by simp [copyFiles]⟩⟩
  | cons n rest ih =>
    intro st
    by_cases hr : toResultsSub n = true
    · by_cases hm : n ∈ st.results
      · rw [copyFiles, if_pos hr, if_pos hm]; exact ih st
      · rw [copyFiles, if_pos hr, if_neg hm]
        obtain ⟨⟨l1, h1⟩, ⟨l2, h2⟩⟩ := ih { st with results := st.results ++ [n] }
        refine ⟨⟨l1, by simpa using h1⟩, ⟨n :: l2, ?_⟩⟩
        simp only at h2
        rw [show (let out := copyFiles { st with results := st.results ++ [n] } rest
              (out.1, out.2 + 1)).1 = (copyFiles { st with results := st.results ++ [n] } rest).1 from rfl]
        rw [h2]
        simp
    · by_cases hm : n ∈ st.root
      · rw [copyFiles, if_neg hr, if_pos hm]; exact ih st
      · rw [copyFiles, if_neg hr, if_neg hm]
        obtain ⟨⟨l1, h1⟩, ⟨l2, h2⟩⟩ := ih { st with root := st.root ++ [n] }
        refine ⟨⟨n :: l1, ?_⟩, ⟨l2, by simpa using h2⟩⟩
        simp only at h1
        rw [show (let out := copyFiles { st with root := st.root ++ [n] } rest
              (out.1, out.2 + 1)).1 = (copyFiles { st with root := st.root ++ [n] } rest).1 from rfl]
        rw [h1]
        simp

/-- When every processed name is already present at its destination, the copy
loop does nothing and copies zero files. -/
theorem copyFiles_noop (ns : List String) : ∀ st : DbState,
    (∀ n ∈ ns, (toResultsSub n = true → n ∈ st.results) ∧
               (toResultsSub n = false → n ∈ st.root)) →
    copyFiles st ns = (st, 0) := by
  induction ns with
  | nil => intro st _; simp [copyFiles]
  | cons n rest ih =>
    intro st h
    have hn := h n (List.mem_cons_self _ _)
    have hrest : ∀ x ∈ rest, (toResultsSub x = true → x ∈ st.results) ∧
        (toResultsSub x = false → x ∈ st.root) :=
      fun x hx => h x (List.mem_cons_of_mem n hx)
    by_cases hr : toResultsSub n = true
    · rw [copyFiles, if_pos hr, if_pos (hn.1 hr)]
      exact ih st hrest
    · rw [Bool.not_eq_true] at hr
      rw [copyFiles, if_neg (by simp [hr]), if_pos (hn.2 hr)]
      exact ih st hrest

/-! ## Miscellaneous helper lemmas -/

/-- A list has two or more distinct elements exactly when its deduplication
has length above one. -/
theorem one_lt_dedup_iff (l : List String) :
    1 < l.dedup.length ↔ ∃ a ∈ l, ∃ b ∈ l, a ≠ b := by
  constructor
  · intro h
    rcases hd : l.dedup with _ | ⟨a, _ | ⟨b, t⟩⟩
    · rw [hd] at h; simp at h
    · rw [hd] at h; simp at h
    · have hnd := List.nodup_dedup l
      rw [hd] at hnd
      have hab : a ≠ b := by
        intro e
        subst e
        exact (List.nodup_cons.mp hnd).1 (by simp)
      have ha : a ∈ l := List.mem_dedup.mp (by rw [hd]; simp)
      have hb : b ∈ l := List.mem_dedup.mp (by rw [hd]; simp)
      exact ⟨a, ha, b, hb, hab⟩
  · rintro ⟨a, ha, b, hb, hab⟩
    have ha2 : a ∈ l.dedup := List.mem_dedup.mpr ha
    have hb2 : b ∈ l.dedup := List.mem_dedup.mpr hb
    rcases hd : l.dedup with _ | ⟨x, _ | ⟨y, t⟩⟩
    · rw [hd] at ha2; simp at ha2
    · rw [hd] at ha2 hb2
      simp at ha2 hb2
      exact absurd (ha2.trans hb2.symm) hab
    · simp [hd]

/-- Deserializing a serialized run restores it exactly. -/
theorem from_dict_to_dict (r : SimulationRun) :
    SimulationRun.from_dict (SimulationRun.to_dict r) = r := rfl

/-! ## Claim theorems -/

/-- C8: Save/load round-trip — for every `SimulationQueue`, saving it with
`save` and loading the result with `SimulationQueue.load` yields a queue with
identical `queue_name`, `error_handling`, `created_at`, and an identical
`runs` list (every field of every `SimulationRun`, including status and
timing fields, is preserved), so `load` is a left inverse of `save` on the
saved configuration. -/
theorem C8_save_load_roundtrip (q : SimulationQueue) (now : String) :
    (SimulationQueue.load (SimulationQueue.save q) now).queue_name = q.queue_name ∧
    (SimulationQueue.load (SimulationQueue.save q) now).error_handling = q.error_handling ∧
    (SimulationQueue.load (SimulationQueue.save q) now).created_at = q.created_at ∧
    (SimulationQueue.load (SimulationQueue.save q) now).runs = q.runs := by
  refine ⟨rfl, rfl, rfl, ?_⟩
  show (q.runs.map SimulationRun.to_dict).map SimulationRun.from_dict = q.runs
  rw [List.map_map]
  have hcomp : SimulationRun.from_dict ∘ SimulationRun.to_dict = id :=
    funext fun r => from_dict_to_dict r
  rw [hcomp, List.map_id]

/-- C10: Empty-queue edge case — when no run of the queue is enabled,
`execute` consults no environment (no subprocess invocation), leaves the
queue (in particular every run's fields) unchanged, and returns the summary
dict `{"status": "empty", "runs_completed": 0, "runs_failed": 0}`, whose
`total_runs` entry is absent (`none`); by contrast, whenever some run is
enabled the summary has status `"completed"` and carries a `total_runs`
entry. -/
theorem C10_empty_queue (q : SimulationQueue) (resume : Bool) (env : Nat → RunEnv) :
    ((∀ r ∈ q.runs, r.enabled = false) →
      SimulationQueue.execute q resume env
        = (q, { status := "empty", runs_completed := 0, runs_failed := 0,
                total_runs := none })) ∧
    ((∃ r ∈ q.runs, r.enabled = true) →
      (SimulationQueue.execute q resume env).2.status = "completed" ∧
      (SimulationQueue.execute q resume env).2.total_runs
        = some ((q.runs.filter (selected resume)).length)) := by
  constructor
  · intro h
    have he : q.runs.filter (fun r => r.enabled) = [] := by
      rw [List.filter_eq_nil_iff]
      intro a ha
      simp [h a ha]
    simp [SimulationQueue.execute, he]
  · rintro ⟨r, hr, he⟩
    have hmem : r ∈ q.runs.filter (fun x => x.enabled) :=
      List.mem_filter.mpr ⟨hr, he⟩
    have hne : (q.runs.filter (fun x => x.enabled)).isEmpty = false := by
      cases hfe : q.runs.filter (fun x => x.enabled) with
      | nil => rw [hfe] at hmem; simp at hmem
      | cons a t => simp [List.isEmpty]
    constructor <;> simp [SimulationQueue.execute, hne]

/-- C7: `finalize_simulation` organizes results into the metadata-indexed
store — after the call, the `results/` subfolder holds exactly its previous
contents plus the matched matrix/result/`.s2p`/`.csv` files, the folder root
holds exactly its previous contents plus the matched geometry and setup
files, the returned count is the number of files actually copied (the growth
of the folder), and `metadata.json`, when present, is rewritten with status
`"completed"` and the completion time. -/
theorem C7_finalize_copies (sim_name : String) (outputFiles : List String)
    (st : DbState) (md : Option MetaData) (now : String) :
    (∀ f, f ∈ (finalize_simulation sim_name outputFiles st md now).1.results
        ↔ f ∈ st.results ∨
            (f ∈ matchedFiles sim_name outputFiles ∧ toResultsSub f = true)) ∧
    (∀ f, f ∈ (finalize_simulation sim_name outputFiles st md now).1.root
        ↔ f ∈ st.root ∨
            (f ∈ matchedFiles sim_name outputFiles ∧ toResultsSub f = false)) ∧
    ((finalize_simulation sim_name outputFiles st md now).1.root.length
      + (finalize_simulation sim_name outputFiles st md now).1.results.length
      = st.root.length + st.results.length
        + (finalize_simulation sim_name outputFiles st md now).2.1) ∧
    ((finalize_simulation sim_name outputFiles st md now).2.2
      = md.map (fun m =>
          { m with status := "completed", completion_time := some now })) := by
  refine ⟨?_, ?_, ?_, rfl⟩
  · intro f; exact copyFiles_mem_results (matchedFiles sim_name outputFiles) st f
  · intro f; exact copyFiles_mem_root (matchedFiles sim_name outputFiles) st f
  · exact copyFiles_length (matchedFiles sim_name outputFiles) st

/-- C9: `finalize_simulation` never overwrites existing database files — the
first call only appends to the folder contents; a second call with the same
arguments finds every matched file already at its destination, copies zero
files, and leaves the folder contents identical, though it does rewrite the
metadata with a fresh completion time. -/
theorem C9_finalize_idempotent (sim_name : String) (outputFiles : List String)
    (st : DbState) (md : Option MetaData) (t1 t2 : String) :
    (∃ l, (finalize_simulation sim_name outputFiles st md t1).1.root
        = st.root ++ l) ∧
    (∃ l, (finalize_simulation sim_name outputFiles st md t1).1.results
        = st.results ++ l) ∧
    (finalize_simulation sim_name outputFiles
        (finalize_simulation sim_name outputFiles st md t1).1
        (finalize_simulation sim_name outputFiles st md t1).2.2 t2).2.1 = 0 ∧
    (finalize_simulation sim_name outputFiles
        (finalize_simulation sim_name outputFiles st md t1).1
        (finalize_simulation sim_name outputFiles st md t1).2.2 t2).1
      = (finalize_simulation sim_name outputFiles st md t1).1 ∧
    (finalize_simulation sim_name outputFiles
        (finalize_simulation sim_name outputFiles st md t1).1
        (finalize_simulation sim_name outputFiles st md t1).2.2 t2).2.2
      = md.map (fun m =>
          { m with status := "completed", completion_time := some t2 }) := by
  obtain ⟨h1, h2⟩ := copyFiles_append_only (matchedFiles sim_name outputFiles) st
  have hnoop : copyFiles (copyFiles st (matchedFiles sim_name outputFiles)).1
      (matchedFiles sim_name outputFiles)
      = ((copyFiles st (matchedFiles sim_name outputFiles)).1, 0) := by
    apply copyFiles_noop
    intro n hn
    constructor
    · intro hr
      exact (copyFiles_mem_results (matchedFiles sim_name outputFiles) st n).mpr
        (Or.inr ⟨hn, hr⟩)
    · intro hr
      exact (copyFiles_mem_root (matchedFiles sim_name outputFiles) st n).mpr
        (Or.inr ⟨hn, hr⟩)
  refine ⟨h1, h2, ?_, ?_, ?_⟩
  · show (copyFiles (copyFiles st (matchedFiles sim_name outputFiles)).1
      (matchedFiles sim_name outputFiles)).2 = 0
    rw [hnoop]
  · show (copyFiles (copyFiles st (matchedFiles sim_name outputFiles)).1
      (matchedFiles sim_name outputFiles)).1
      = (copyFiles st (matchedFiles sim_name outputFiles)).1
    rw [hnoop]
  · cases md with
    | none => rfl
    | some m => rfl

/-! ## Stage characterization lemmas for claim C3 -/

/-- The success flag of a run is the conjunction of the two stage tests. -/
theorem execute_run_snd (e : RunEnv) (r : SimulationRun) :
    (execute_run e r).2 = (scriptStageOk e && batchStageOk e) := by
  obtain ⟨scr, files, batch, t1, t2, d⟩ := e
  cases scr with
  | exc m => simp [execute_run, execute_python_script, scriptStageOk]
  | ok rc out =>
    by_cases hrc : rc = 0
    · subst hrc
      rcases hp : parse_output_folder out with _ | f
      · simp [execute_run, execute_python_script, scriptStageOk, hp]
      · by_cases hf : f = ""
        · subst hf
          simp [execute_run, execute_python_script, scriptStageOk, hp]
        · rcases hb : find_batch_file files with _ | bat
          · simp [execute_run, execute_python_script, execute_batch_file,
              scriptStageOk, batchStageOk, hp, hf, hb]
          · cases batch with
            | exc m =>
              simp [execute_run, execute_python_script, execute_batch_file,
                scriptStageOk, batchStageOk, hp, hf, hb]
            | ok brc bout =>
              by_cases hbrc : brc = 0
              · subst hbrc
                simp [execute_run, execute_python_script, execute_batch_file,
                  scriptStageOk, batchStageOk, hp, hf, hb]
              · simp [execute_run, execute_python_script, execute_batch_file,
                  scriptStageOk, batchStageOk, hp, hf, hb, hbrc]
    · simp [execute_run, execute_python_script, scriptStageOk, hrc]

/-- The final status is `"completed"` on success and `"failed"` on failure. -/
theorem execute_run_status (e : RunEnv) (r : SimulationRun) :
    (execute_run e r).1.status
      = (if (execute_run e r).2 then "completed" else "failed") := by
  rw [execute_run]
  cases hp : (execute_python_script e
      { r with status := "running", start_time := some e.startTime }).2
  · simp [hp]
  · cases hb : (execute_batch_file e (execute_python_script e
        { r with status := "running", start_time := some e.startTime }).1).2 <;>
      simp [hp, hb]

/-- A failed run always carries an error message. -/
theorem execute_run_error_message (e : RunEnv) (r : SimulationRun) :
    (execute_run e r).2 = false →
    ((execute_run e r).1.error_message).isSome = true := by
  obtain ⟨scr, files, batch, t1, t2, d⟩ := e
  cases scr with
  | exc m => intro _; simp [execute_run, execute_python_script]
  | ok rc out =>
    by_cases hrc : rc = 0
    · subst hrc
      rcases hp : parse_output_folder out with _ | f
      · intro _; simp [execute_run, execute_python_script, hp]
      · by_cases hf : f = ""
        · subst hf; intro _; simp [execute_run, execute_python_script, hp]
        · rcases hb : find_batch_file files with _ | bat
          · intro _
            simp [execute_run, execute_python_script, execute_batch_file, hp, hf, hb]
          · cases batch with
            | exc m =>
              intro _
              simp [execute_run, execute_python_script, execute_batch_file, hp, hf, hb]
            | ok brc bout =>
              by_cases hbrc : brc = 0
              · subst hbrc
                intro hc
                rw [execute_run_snd] at hc
                simp [scriptStageOk, batchStageOk, hp, hf, hb] at hc
              · intro _
                simp [execute_run, execute_python_script, execute_batch_file,
                  hp, hf, hb, hbrc]
    · intro _
      simp [execute_run, execute_python_script, hrc]

/-- The two stage tests fail together exactly on the claim's failure list. -/
theorem stages_false_iff (e : RunEnv) :
    (scriptStageOk e && batchStageOk e) = false ↔ runFails e := by
  obtain ⟨scr, files, batch, t1, t2, d⟩ := e
  cases scr with
  | exc m => simp [scriptStageOk, runFails]
  | ok rc out =>
    by_cases hrc : rc = 0
    · subst hrc
      rcases hp : parse_output_folder out with _ | f
      · simp [scriptStageOk, runFails, hp]
      · by_cases hf : f = ""
        · subst hf; simp [scriptStageOk, runFails, hp]
        · rcases hb : find_batch_file files with _ | bat
          · simp [scriptStageOk, batchStageOk, runFails, hp, hf, hb]
          · cases batch with
            | exc m => simp [scriptStageOk, batchStageOk, runFails, hp, hf, hb]
            | ok brc bout =>
              by_cases hbrc : brc = 0
              · subst hbrc
                simp [scriptStageOk, batchStageOk, runFails, hp, hf, hb]
              · simp [scriptStageOk, batchStageOk, runFails, hp, hf, hb, hbrc]
    · simp [scriptStageOk, runFails, hrc]

/-- On a successful script stage the parsed folder is recorded in
`output_folder`. -/
theorem execute_run_output_folder (e : RunEnv) (r : SimulationRun) :
    scriptStageOk e = true →
    ∃ out folder, e.script = ProcResult.ok 0 out ∧
      parse_output_folder out = some folder ∧ (folder == "") = false ∧
      (execute_run e r).1.output_folder = some folder := by
  obtain ⟨scr, files, batch, t1, t2, d⟩ := e
  cases scr with
  | exc m => intro h; simp [scriptStageOk] at h
  | ok rc out =>
    intro h
    simp only [scriptStageOk] at h
    rw [Bool.and_eq_true] at h
    obtain ⟨hrc, hpf⟩ := h
    have hrc2 : rc = 0 := by simpa using hrc
    subst hrc2
    rcases hp : parse_output_folder out with _ | f
    · rw [hp] at hpf; simp at hpf
    · rw [hp] at hpf
      have hf : (f == "") = false := by simpa using hpf
      refine ⟨out, f, rfl, hp, hf, ?_⟩
      have hf2 : f ≠ "" := by simpa using hf
      rcases hb : find_batch_file files with _ | bat
      · simp [execute_run, execute_python_script, execute_batch_file, hp, hf2, hb]
      · cases batch with
        | exc m =>
          simp [execute_run, execute_python_script, execute_batch_file, hp, hf2, hb]
        | ok brc bout =>
          by_cases hbrc : brc = 0
          · subst hbrc
            simp [execute_run, execute_python_script, execute_batch_file, hp, hf2, hb]
          · simp [execute_run, execute_python_script, execute_batch_file,
              hp, hf2, hb, hbrc]

/-- The batch stage is entered — observable through `bat_file` — only after a
successful script stage. -/
theorem execute_run_bat_file (e : RunEnv) (r : SimulationRun) :
    (execute_run e r).1.bat_file ≠ r.bat_file → scriptStageOk e = true := by
  intro h
  by_contra hs
  rw [Bool.not_eq_true] at hs
  apply h
  obtain ⟨scr, files, batch, t1, t2, d⟩ := e
  cases scr with
  | exc m => simp [execute_run, execute_python_script]
  | ok rc out =>
    by_cases hrc : rc = 0
    · subst hrc
      rcases hp : parse_output_folder out with _ | f
      · simp [execute_run, execute_python_script, hp]
      · by_cases hf : f = ""
        · subst hf; simp [execute_run, execute_python_script, hp]
        · exfalso
          simp [scriptStageOk, hp, hf] at hs
    · simp [execute_run, execute_python_script, hrc]

/-- C3: Two-stage orchestration of a run — the run succeeds exactly when both
the script stage and the batch stage succeed; its final status is
`"completed"` on success and `"failed"` otherwise; a failed run has
`error_message` set; the run fails exactly under the claim's failure list
(script exits nonzero, raises, or exports no parseable nonempty output
folder; or a successful script stage is followed by a missing batch file, a
batch file exiting nonzero, or an exception); on a successful script stage
the folder parsed from the script's stdout is recorded as `output_folder`;
and the batch stage (which alone sets `bat_file`) is entered only after the
script stage succeeded. -/
theorem C3_two_stage_orchestration (e : RunEnv) (r : SimulationRun) :
    ((execute_run e r).2 = (scriptStageOk e && batchStageOk e)) ∧
    ((execute_run e r).1.status
      = (if (execute_run e r).2 then "completed" else "failed")) ∧
    ((execute_run e r).2 = false →
      ((execute_run e r).1.error_message).isSome = true) ∧
    ((execute_run e r).2 = false ↔ runFails e) ∧
    (scriptStageOk e = true →
      ∃ out folder, e.script = ProcResult.ok 0 out ∧
        parse_output_folder out = some folder ∧ (folder == "") = false ∧
        (execute_run e r).1.output_folder = some folder) ∧
    ((execute_run e r).1.bat_file ≠ r.bat_file → scriptStageOk e = true) := by
  refine ⟨execute_run_snd e r, execute_run_status e r,
    execute_run_error_message e r, ?_, execute_run_output_folder e r,
    execute_run_bat_file e r⟩
  rw [execute_run_snd e r]
  constructor
  · intro h
    exact (stages_false_iff e).mp (by simpa using h)
  · intro h
    have := (stages_false_iff e).mpr h
    simpa using this

/-- C1: Error-handling policy of `execute` — with `error_handling = "stop"`,
as soon as the first attempted run fails (every selected run before it having
succeeded), the loop halts: the failed run is recorded and every later run is
returned exactly as it was, so a later enabled run is not executed and a
pending one stays `"pending"`.  With `error_handling = "continue"`, every
selected (enabled) run is attempted regardless of earlier failures — the
resulting runs list is `runResults` over the whole queue — and
`runs_completed + runs_failed` equals the number of runs attempted, i.e. the
number of enabled runs. -/
theorem C1_error_handling_policy (q : SimulationQueue) (env : Nat → RunEnv) :
    (q.error_handling = "stop" →
      ∀ (l₁ : List SimulationRun) (r : SimulationRun) (l₂ : List SimulationRun),
        q.runs = l₁ ++ r :: l₂ →
        (succList false env 0 l₁).all id = true →
        selected false r = true →
        (execute_run (env (selCount false l₁)) r).2 = false →
        (SimulationQueue.execute q false env).1.runs
          = runResults false env 0 l₁
              ++ (execute_run (env (selCount false l₁)) r).1 :: l₂) ∧
    (q.error_handling = "continue" →
      (SimulationQueue.execute q false env).1.runs
          = runResults false env 0 q.runs ∧
      (SimulationQueue.execute q false env).2.runs_completed
          + (SimulationQueue.execute q false env).2.runs_failed
        = selCount false q.runs) := by
  constructor
  · intro heh l₁ r l₂ hq hsucc hsel hfail
    have hen : r.enabled = true := by
      simp [selected] at hsel
      exact hsel
    have hmem : r ∈ q.runs.filter (fun x => x.enabled) := by
      refine List.mem_filter.mpr ⟨?_, hen⟩
      rw [hq]
      simp
    have hne : (q.runs.filter (fun x => x.enabled)).isEmpty = false := by
      cases hfe : q.runs.filter (fun x => x.enabled) with
      | nil => rw [hfe] at hmem; simp at hmem
      | cons a t => simp [List.isEmpty]
    have hfail2 : (execute_run (env (0 + selCount false l₁)) r).2 = false := by
      simpa using hfail
    have hloop : (execLoop q.error_handling false env ⟨false, 0, 0, 0⟩ q.runs).2
        = runResults false env 0 l₁
            ++ (execute_run (env (selCount false l₁)) r).1 :: l₂ := by
      rw [hq, heh,
        execLoop_append_ok "stop" false env l₁ (r :: l₂) 0 0 0 hsucc,
        execLoop_cons_fail "stop" false env (0 + selCount false l₁)
          (0 + selCount false l₁) 0 r l₂ hsel hfail2]
      rw [show (("stop" : String) == "stop") = true from rfl]
      rw [execLoop_halted "stop" false env l₂ ⟨true, 0 + selCount false l₁ + 1,
        0 + selCount false l₁, 0 + 1⟩ rfl]
      simp
    simp [SimulationQueue.execute, hne, hloop]
  · intro heh
    by_cases hq : (q.runs.filter (fun x => x.enabled)).isEmpty = true
    · have hnil : q.runs.filter (fun x => x.enabled) = [] := by
        simpa [List.isEmpty_iff] using hq
      have hall : ∀ x ∈ q.runs, selected false x = false := by
        intro x hx
        have := List.filter_eq_nil_iff.mp hnil x hx
        simp [selected]
        simpa using this
      have hsel0 : selCount false q.runs = 0 := by
        rw [selCount, List.length_eq_zero]
        rw [List.filter_eq_nil_iff]
        intro a ha
        simp [hall a ha]
      constructor
      · simp [SimulationQueue.execute, hq,
          runResults_id false env q.runs hall 0]
      · simp [SimulationQueue.execute, hq, hsel0]
    · rw [Bool.not_eq_true] at hq
      have heh2 : (q.error_handling == "stop") = false := by
        rw [heh]; rfl
      have hloop := execLoop_no_stop q.error_handling false env heh2 q.runs 0 0 0
      constructor
      · simp [SimulationQueue.execute, hq, hloop]
      · have hcount := count_true_add_count_false (succList false env 0 q.runs)
        have hlen := succList_length false env q.runs 0
        simp [SimulationQueue.execute, hq, hloop]
        omega

/-- C2 (amended): Resume semantics of `execute` — in resume mode every run
that is not both enabled and `"pending"` (in particular every run already
marked `"completed"`, with all its stored fields) is returned unchanged; and
when `error_handling` is `"continue"` (so that no failure halts the loop),
the runs attempted are exactly the enabled runs with recorded status
`"pending"`: the resulting runs list is `runResults`, which replaces exactly
the selected runs by their executed states. -/
theorem C2_resume_skips_completed (q : SimulationQueue) (env : Nat → RunEnv) :
    (∀ (j : Nat) (r₀ : SimulationRun), q.runs[j]? = some r₀ →
       selected true r₀ = false →
       ((SimulationQueue.execute q true env).1.runs)[j]? = some r₀) ∧
    (q.error_handling = "continue" →
       (SimulationQueue.execute q true env).1.runs
         = runResults true env 0 q.runs) := by
  constructor
  · intro j r₀ hj hs
    by_cases hq : (q.runs.filter (fun x => x.enabled)).isEmpty = true
    · simpa [SimulationQueue.execute, hq] using hj
    · rw [Bool.not_eq_true] at hq
      have := execLoop_unselected q.error_handling true env q.runs
        ⟨false, 0, 0, 0⟩ j r₀ hj hs
      simpa [SimulationQueue.execute, hq] using this
  · intro heh
    by_cases hq : (q.runs.filter (fun x => x.enabled)).isEmpty = true
    · have hnil : q.runs.filter (fun x => x.enabled) = [] := by
        simpa [List.isEmpty_iff] using hq
      have hall : ∀ x ∈ q.runs, selected true x = false := by
        intro x hx
        have := List.filter_eq_nil_iff.mp hnil x hx
        simp [selected]
        intro he
        exact absurd he (by simpa using this)
      simp [SimulationQueue.execute, hq,
        runResults_id true env q.runs hall 0]
    · rw [Bool.not_eq_true] at hq
      have heh2 : (q.error_handling == "stop") = false := by
        rw [heh]; rfl
      have hloop := execLoop_no_stop q.error_handling true env heh2 q.runs 0 0 0
      simp [SimulationQueue.execute, hq, hloop]

/-- C4: Strictly sequential execution in `add_run` order — `add_run` appends
the new run at the end of the runs list; any run `execute` changed was
attempted, on its own, with the attempt index equal to the number of selected
runs before its position in the list (the loop is a sequential fold, so the
previous run's attempt has reached its final state before the next
environment record — the next subprocess pair — is consumed); and these
attempt indices are strictly increasing along the list, so runs are attempted
one at a time in exactly the order `add_run` appended them. -/
theorem C4_sequential_execution :
    (∀ (q : SimulationQueue) (script description : String)
       (sweep_overrides : Option (List (String × String)))
       (args : Option (List String)) (enabled : Bool),
       (q.add_run script description sweep_overrides args enabled).runs
         = q.runs ++
             [{ script := script, description := description,
                args := args.getD [], sweep_overrides := sweep_overrides,
                enabled := enabled }]) ∧
    (∀ (q : SimulationQueue) (resume : Bool) (env : Nat → RunEnv) (j : Nat),
       ((SimulationQueue.execute q resume env).1.runs)[j]? ≠ q.runs[j]? →
       ((SimulationQueue.execute q resume env).1.runs)[j]?
         = (q.runs[j]?).map
             (fun r => (execute_run (env (selBefore resume q.runs j)) r).1)) ∧
    (∀ (resume : Bool) (rs : List SimulationRun) (i j : Nat)
       (r₀ : SimulationRun),
       i < j → rs[i]? = some r₀ → selected resume r₀ = true →
       selBefore resume rs i < selBefore resume rs j) := by
  refine ⟨fun q script description sweep_overrides args enabled => rfl, ?_, ?_⟩
  · intro q resume env j h
    by_cases hq : (q.runs.filter (fun x => x.enabled)).isEmpty = true
    · exfalso
      apply h
      simp [SimulationQueue.execute, hq]
    · rw [Bool.not_eq_true] at hq
      have h2 : ((execLoop q.error_handling resume env ⟨false, 0, 0, 0⟩ q.runs).2)[j]?
          ≠ q.runs[j]? := by
        intro he
        apply h
        simpa [SimulationQueue.execute, hq] using he
      have := execLoop_changed q.error_handling resume env q.runs
        ⟨false, 0, 0, 0⟩ j h2
      simpa [SimulationQueue.execute, hq] using this
  · intro resume rs i j r₀ hij hi hsel
    have hstep := selBefore_succ_of_selected resume rs i r₀ hi hsel
    have hmono := selBefore_mono resume rs (i + 1) j hij
    omega

/-- C5: Parameter-sweep detection — `detect_varied_parameters` returns the
empty map for at most one simulation; with two or more, a key is recorded
exactly when it comes from the first simulation's parameter dict, is not one
of the excluded metadata keys (`name`, `extra_json_data`, `box`,
`face_stack`), and its values (by their string rendering) are not all equal
across the simulations, and it is mapped to the deduplicated, sorted list of
those values; `register_simulations` records exactly this map as
`varied_parameters`. -/
theorem C5_detect_varied_parameters (sims : List Sim) :
    (sims.length ≤ 1 → detect_varied_parameters sims = []) ∧
    (∀ (s0 : Sim) (rest : List Sim), sims = s0 :: rest →
      ∀ (key : String) (vs : List String),
        ((key, vs) ∈ detect_varied_parameters sims ↔
          (2 ≤ sims.length ∧ key ∈ s0.params.map Prod.fst ∧
           key ∉ excludedDetect ∧
           (∃ a ∈ sims.filterMap (fun s => s.params.lookup key),
            ∃ b ∈ sims.filterMap (fun s => s.params.lookup key), a ≠ b) ∧
           vs = sortStrings (sims.filterMap (fun s => s.params.lookup key)).dedup))) ∧
    (∀ (design_name : String) (ep : ExportParams) (ts : String),
       (register_simulations sims design_name ep ts).varied_parameters
         = detect_varied_parameters sims) := by
  refine ⟨?_, ?_, fun design_name ep ts => rfl⟩
  · intro h
    rw [detect_varied_parameters.eq_def, if_pos h]
  · intro s0 rest heq key vs
    subst heq
    by_cases hlen : (s0 :: rest).length ≤ 1
    · rw [detect_varied_parameters.eq_def, if_pos hlen]
      constructor
      · intro h; simp at h
      · rintro ⟨h2, _⟩; omega
    · rw [detect_varied_parameters.eq_def, if_neg hlen]
      dsimp only
      rw [List.mem_filterMap]
      constructor
      · rintro ⟨k, hk, hf⟩
        by_cases hex : k ∈ excludedDetect
        · rw [if_pos hex] at hf
          exact absurd hf (by simp)
        · rw [if_neg hex] at hf
          by_cases hv : 1 < ((s0 :: rest).filterMap
              (fun s => s.params.lookup k)).dedup.length
          · rw [if_pos hv, Option.some_inj, Prod.mk.injEq] at hf
            obtain ⟨hf1, hf2⟩ := hf
            subst hf1
            refine ⟨by simpa using Nat.lt_of_not_le hlen, hk, hex,
              (one_lt_dedup_iff _).mp hv, hf2.symm⟩
          · rw [if_neg hv] at hf
            exact absurd hf (by simp)
      · rintro ⟨h2, hk, hex, hab, hvs⟩
        refine ⟨key, hk, ?_⟩
        rw [if_neg hex, if_pos ((one_lt_dedup_iff _).mpr hab), hvs]

/-- C6: Sweep-folder naming — the folder name is the sanitized
`<ts>_<p1>[_<p2>]_sweep_<tool>` built from the first two alphabetically
sorted meaningful varied parameter names (those not in `name`, `box`,
`face_stack`, `use_ports`, `use_internal_ports`), or `<ts>_single_<tool>`
when no meaningful parameter varies; the tool suffix is `ansys_tool`
(default `"sim"`), replaced by `"q3d_acrl"` when the tool is `"q3d"` and
`solve_acrl` is set; spaces and slashes are replaced by underscores; and
`register_simulations` names its sweep folder by applying this function to
the detected varied parameters. -/
theorem C6_sweep_folder_name (ts : String)
    (varied_params : List (String × List String)) (ep : ExportParams)
    (sims : List Sim) (design_name : String) :
    ((varied_params.filter (fun kv => !(kv.1 ∈ excludedName))) = [] →
       generate_sweep_folder_name ts varied_params ep
         = sanitizeName (ts ++ "_single_" ++
             (if (ep.ansys_tool.getD "sim") = "q3d" && ep.solve_acrl.getD false
              then "q3d_acrl" else ep.ansys_tool.getD "sim"))) ∧
    ((varied_params.filter (fun kv => !(kv.1 ∈ excludedName))) ≠ [] →
       generate_sweep_folder_name ts varied_params ep
         = sanitizeName (ts ++ "_" ++
             "_".intercalate
               ((sortStrings ((varied_params.filter
                   (fun kv => !(kv.1 ∈ excludedName))).map Prod.fst)).take 2)
             ++ "_sweep_" ++
             (if (ep.ansys_tool.getD "sim") = "q3d" && ep.solve_acrl.getD false
              then "q3d_acrl" else ep.ansys_tool.getD "sim"))) ∧
    ((register_simulations sims design_name ep ts).sweep_folder_name
      = generate_sweep_folder_name ts (detect_varied_parameters sims) ep) := by
  refine ⟨?_, ?_, rfl⟩
  · intro h
    simp [generate_sweep_folder_name, h]
  · intro h
    have hne : (varied_params.filter (fun kv => !(kv.1 ∈ excludedName))).isEmpty
        = false := by
      cases hfe : varied_params.filter (fun kv => !(kv.1 ∈ excludedName)) with
      | nil => exact absurd hfe h
      | cons a t => simp [List.isEmpty]
    simp [generate_sweep_folder_name, hne]

/-! ## Concrete inputs for witnesses and counterexamples -/

/-- Witness queue for C1: a `"stop"` queue of two fresh enabled runs. -/
def C1wRun1 : SimulationRun := { script := "a.py", description := "first" }

/-- Second run of the C1 witness queue. -/
def C1wRun2 : SimulationRun := { script := "b.py", description := "second" }

/-- The C1 witness queue. -/
def C1wQueue : SimulationQueue :=
  { queue_name := "w1", error_handling := "stop",
    runs := [C1wRun1, C1wRun2], created_at := "t0" }

/-- Environment for the C1 witness: every script subprocess exits 1. -/
def C1wEnv : Nat → RunEnv := fun _ =>
  { script := ProcResult.ok 1 "", files := [], batch := ProcResult.ok 0 "",
    startTime := "s", endTime := "e", duration := 0 }

/-- Witness for C1: in the two-run `"stop"` queue whose first run fails, the
queue halts after the failure and the second run is returned untouched. -/
theorem C1_error_handling_policy_witness :
    (SimulationQueue.execute C1wQueue false C1wEnv).1.runs
      = runResults false C1wEnv 0 []
          ++ (execute_run (C1wEnv (selCount false [])) C1wRun1).1 :: [C1wRun2] :=
  (C1_error_handling_policy C1wQueue C1wEnv).1 rfl [] C1wRun1 [C1wRun2] rfl
    (by decide) (by decide) (by decide)

/-- First run of the C2 counterexample queue. -/
def C2cRun1 : SimulationRun := { script := "a.py", description := "first" }

/-- Second run of the C2 counterexample queue. -/
def C2cRun2 : SimulationRun := { script := "b.py", description := "second" }

/-- The C2 counterexample queue: `"stop"` policy, both runs enabled and
pending. -/
def C2cQueue : SimulationQueue :=
  { queue_name := "w2c", error_handling := "stop",
    runs := [C2cRun1, C2cRun2], created_at := "t0" }

/-- Environment for the C2 counterexample: every script subprocess exits 1. -/
def C2cEnv : Nat → RunEnv := fun _ =>
  { script := ProcResult.ok 1 "", files := [], batch := ProcResult.ok 0 "",
    startTime := "s", endTime := "e", duration := 0 }

/-- Counterexample to C2 as stated: with resume mode and `"stop"` error
handling, the second run is enabled with recorded status `"pending"`, yet
after `execute` it is returned completely untouched (status still
`"pending"`, `start_time` still unset) because the first run's failure halted
the queue — so the runs executed in resume mode are not exactly the enabled
pending runs. -/
theorem C2_resume_counterexample :
    C2cRun2.enabled = true ∧ C2cRun2.status = "pending" ∧
    ((SimulationQueue.execute C2cQueue true C2cEnv).1.runs)[1]? = some C2cRun2 ∧
    C2cRun2.start_time = none := by decide

/-- A run already completed before the C2 witness resume. -/
def C2wRunDone : SimulationRun :=
  { script := "a.py", description := "done", status := "completed",
    output_folder := some "tmp/out" }

/-- A still-pending run of the C2 witness queue. -/
def C2wRunPend : SimulationRun := { script := "b.py", description := "todo" }

/-- The C2 witness queue. -/
def C2wQueue : SimulationQueue :=
  { queue_name := "w2", error_handling := "continue",
    runs := [C2wRunDone, C2wRunPend], created_at := "t0" }

/-- Environment for the C2 witness. -/
def C2wEnv : Nat → RunEnv := fun _ =>
  { script := ProcResult.ok 0 "Exported 3 simulation files to: tmp/out2\n",
    files := ["simulation.bat"], batch := ProcResult.ok 0 "",
    startTime := "s", endTime := "e", duration := 2 }

/-- Witness for the amended C2: the already-completed run of the witness
queue comes out of a resume-mode `execute` unchanged. -/
theorem C2_resume_skips_completed_witness :
    ((SimulationQueue.execute C2wQueue true C2wEnv).1.runs)[0]? = some C2wRunDone :=
  (C2_resume_skips_completed C2wQueue C2wEnv).1 0 C2wRunDone (by decide) (by decide)

/-- Environment for the C3 witness: script succeeds and exports, batch file
present and succeeds. -/
def C3wEnv : RunEnv :=
  { script := ProcResult.ok 0 "Exported 4 simulation files to: tmp/out\n",
    files := ["simulation.bat"], batch := ProcResult.ok 0 "done",
    startTime := "s", endTime := "e", duration := 1 }

/-- The run executed in the C3 witness. -/
def C3wRun : SimulationRun := { script := "c.py", description := "run" }

/-- Witness for C3: with a successful script stage, the folder parsed from
the script's stdout is recorded as the run's `output_folder`. -/
theorem C3_two_stage_orchestration_witness :
    ∃ out folder, C3wEnv.script = ProcResult.ok 0 out ∧
      parse_output_folder out = some folder ∧ (folder == "") = false ∧
      (execute_run C3wEnv C3wRun).1.output_folder = some folder :=
  (C3_two_stage_orchestration C3wEnv C3wRun).2.2.2.2.1 (by decide)

/-- The single run of the C4 witness queue. -/
def C4wRun : SimulationRun := { script := "d.py", description := "only" }

/-- The C4 witness queue. -/
def C4wQueue : SimulationQueue :=
  { queue_name := "w4", error_handling := "continue",
    runs := [C4wRun], created_at := "t0" }

/-- Environment for the C4 witness: the script subprocess exits 1. -/
def C4wEnv : Nat → RunEnv := fun _ =>
  { script := ProcResult.ok 1 "", files := [], batch := ProcResult.ok 0 "",
    startTime := "s", endTime := "e", duration := 0 }

/-- Witness for C4: the changed run of the witness queue is exactly the
execution of the original run with attempt index `selBefore`. -/
theorem C4_sequential_execution_witness :
    ((SimulationQueue.execute C4wQueue false C4wEnv).1.runs)[0]?
      = ((C4wQueue.runs)[0]?).map
          (fun r => (execute_run (C4wEnv (selBefore false C4wQueue.runs 0)) r).1) :=
  C4_sequential_execution.2.1 C4wQueue false C4wEnv 0 (by decide)

/-- The simulations of the C5 witness: `finger_length` varies, `gap` and the
excluded `name` do not. -/
def C5wSims : List Sim :=
  [ { name := "sim1",
      params := [("name", "sim1"), ("finger_length", "5"), ("gap", "2")] },
    { name := "sim2",
      params := [("name", "sim2"), ("finger_length", "10"), ("gap", "2")] } ]

/-- Witness for C5: `finger_length` is detected with its deduplicated sorted
value list (note the lexicographic order `"10" < "5"`). -/
theorem C5_detect_varied_parameters_witness :
    ("finger_length", ["10", "5"]) ∈ detect_varied_parameters C5wSims :=
  ((C5_detect_varied_parameters C5wSims).2.1 _ _ rfl "finger_length"
      ["10", "5"]).mpr
    ⟨by decide, by decide, by decide,
     ⟨"5", by decide, "10", by decide, by decide⟩, by decide⟩

/-- Varied parameters of the C6 witness (the excluded `name` key varies
too, but must not appear in the folder name). -/
def C6wVaried : List (String × List String) :=
  [("finger_length", ["10", "5"]), ("name", ["sim1", "sim2"])]

/-- Export parameters of the C6 witness: Q3D with `solve_acrl`. -/
def C6wEp : ExportParams := { ansys_tool := some "q3d", solve_acrl := some true }

/-- Witness for C6: one meaningful varied parameter, Q3D with `solve_acrl`,
gives the `q3d_acrl`-suffixed sweep name. -/
theorem C6_sweep_folder_name_witness :
    generate_sweep_folder_name "20260101_000000" C6wVaried C6wEp
      = "20260101_000000_finger_length_sweep_q3d_acrl" := by
  have h := (C6_sweep_folder_name "20260101_000000" C6wVaried C6wEp []
    "design").2.1 (by decide)
  rw [h]
  decide

/-- The single, disabled run of the C10 witness queue. -/
def C10wRun : SimulationRun :=
  { script := "z.py", description := "off", enabled := false }

/-- The C10 witness queue: nothing enabled. -/
def C10wQueue : SimulationQueue :=
  { queue_name := "w10", error_handling := "continue",
    runs := [C10wRun], created_at := "t0" }

/-- Environment for the C10 witness (never consulted). -/
def C10wEnv : Nat → RunEnv := fun _ =>
  { script := ProcResult.ok 0 "", files := [], batch := ProcResult.ok 0 "",
    startTime := "s", endTime := "e", duration := 0 }

/-- Witness for C10: the all-disabled queue returns the `"empty"` summary
without a `total_runs` entry and is left unchanged. -/
theorem C10_empty_queue_witness :
    SimulationQueue.execute C10wQueue false C10wEnv
      = (C10wQueue, { status := "empty", runs_completed := 0, runs_failed := 0,
                      total_runs := none }) :=
  (C10_empty_queue C10wQueue false C10wEnv).1 (by decide)
